import Mathlib

set_option maxRecDepth 8000

/-!
Verification of the search-aggregation server (`server/src`): shallow embedding
of the orchestrator (`main.rs`), the scoring/dedup pipeline (`scoring.rs`),
the result ordering (`scraper.rs`), the cache access (`cache.rs`) and the two
engine adapters (`scraper.rs`), with theorems about the spec's claims.

Modelling conventions:
* Rust `String`/`&str` values are Lean `String`s; the string operations the
  code uses (`to_lowercase`, `replace`, `trim`, `contains`, ...) are defined
  here over `String.data` by structural recursion so that every definition is
  executable and kernel-reducible.  Rust compares strings byte-lexicographically
  on UTF-8; comparing the underlying code points gives the same order, which is
  what the character-list comparison below does.
* Rust `f64` scores are modelled as `ℚ` with exact arithmetic; `f64::round`
  (round half away from zero) coincides with Mathlib's `round` on the
  non-negative values produced by the scorer.
* `u32` arithmetic is `Nat` with explicit wrapping modulo `2 ^ 32`.
* Fallible operations are `Except`/`Option`; the I/O outcomes of engines, the
  rate limiter and the cache backend are passed in explicitly as data.
-/

/-! ## Character-list string operations (models of the Rust `str` methods) -/

/-- Model of Rust `str::to_lowercase` (exact on ASCII, which is all the code
compares after `unidecode`). -/
def lowerStr (s : String) : String := ⟨s.data.map Char.toLower⟩

/-- Model of Rust `str::trim_end_matches(c)`: drop every trailing `c`. -/
def trimEndMatches (s : String) (c : Char) : String :=
  ⟨(s.data.reverse.dropWhile (fun d => d == c)).reverse⟩

/-- One fuel-indexed step list for `replaceAll`; fuel `s.length` suffices since
every step consumes at least one character of `s`. -/
def replaceAllFuel (pat rep : List Char) : Nat → List Char → List Char
  | 0, s => s
  | _ + 1, [] => []
  | fuel + 1, c :: rest =>
    if pat ≠ [] ∧ pat.isPrefixOf (c :: rest) then
      rep ++ replaceAllFuel pat rep fuel ((c :: rest).drop pat.length)
    else
      c :: replaceAllFuel pat rep fuel rest

/-- Model of Rust `str::replace`: replace every (leftmost-first,
non-overlapping) occurrence of `pat` by `rep`. -/
def replaceStr (s pat rep : String) : String :=
  ⟨replaceAllFuel pat.data rep.data s.data.length s.data⟩

/-- Model of Rust `str::contains(&str)`: substring containment. -/
def containsSub (hay needle : String) : Bool :=
  go hay.data needle.data
where
  go : List Char → List Char → Bool
    | h, n =>
      match h with
      | [] => n.isEmpty
      | _ :: t => n.isPrefixOf h || go t n

/-- Model of Rust `str::starts_with(&str)`. -/
def startsWithSub (s pre : String) : Bool := pre.data.isPrefixOf s.data

/-- Model of Rust `str::trim` (drops leading and trailing whitespace). -/
def trimWS (s : String) : String :=
  ⟨((s.data.dropWhile Char.isWhitespace).reverse.dropWhile Char.isWhitespace).reverse⟩

/-- Model of Rust `str::trim_start_matches(|c| !c.is_alphanumeric())`. -/
def trimStartNonAlnum (s : String) : String :=
  ⟨s.data.dropWhile (fun c => !c.isAlphanum)⟩

/-- Model of Rust `str::split_whitespace`: maximal non-empty runs of
non-whitespace characters. -/
def splitWhitespaceM (s : String) : List String :=
  (go s.data []).map fun w => ⟨w⟩
where
  go : List Char → List Char → List (List Char)
    | [], cur => if cur.isEmpty then [] else [cur.reverse]
    | c :: rest, cur =>
      if c.isWhitespace then
        if cur.isEmpty then go rest [] else cur.reverse :: go rest []
      else
        go rest (c :: cur)

/-- Number of characters of a string (Rust `str::chars().count()`, as used by
the `strsim` crate). -/
def charCount (s : String) : Nat := s.data.length

/-- Number of UTF-8 bytes of a string (Rust `str::len`). -/
def byteLen (s : String) : Nat := s.data.foldl (fun n c => n + c.utf8Size) 0

/-! ## Levenshtein distance (model of the `strsim` crate) -/

/-- One inner step of the dynamic-programming row update. -/
def levRowAux (c : Char) : List (Char × Nat × Nat) → Nat → List Nat
  | [], _ => []
  | (y, pj, pj1) :: rest, cur =>
    let next := min (min (pj + (if c == y then 0 else 1)) (pj1 + 1)) (cur + 1)
    next :: levRowAux c rest next

/-- Advance the DP row for one character of the first string. -/
def levRowStep (ys : List Char) (prev : List Nat) (c : Char) : List Nat :=
  let cur0 := prev.headD 0 + 1
  cur0 :: levRowAux c (ys.zip (prev.zip prev.tail)) cur0

/-- Levenshtein edit distance between two character lists (unit costs), the
distance computed by strsim. -/
def levDist (xs ys : List Char) : Nat :=
  (xs.foldl (levRowStep ys) (List.range (ys.length + 1))).getLastD 0

/-- `strsim::normalized_levenshtein`: `1` for two empty strings, else
`1 - distance / max(len_a, len_b)` (lengths in characters). -/
def normLev (a b : String) : ℚ :=
  if a.data.length = 0 ∧ b.data.length = 0 then 1
  else 1 - (levDist a.data b.data : ℚ) / ((max a.data.length b.data.length : ℕ) : ℚ)

/-! ## Data model (`scraper.rs` lines 9-25) -/

structure Breadcrumb where
  text : String
  url : Option String
deriving DecidableEq, Repr

structure SearchResult where
  title : String
  link : String
  snippet : String
  source : String
  score : ℚ
  favicon_url : Option String
  site_name : Option String
  breadcrumbs : List Breadcrumb
deriving DecidableEq, Repr

/-! ## Scoring (`scoring.rs`) -/

/-- Model of the `unidecode` crate on a single character: ASCII passes through,
common Latin accented letters transliterate, anything else maps to the empty
string (the crate's behaviour for unmapped codepoints).  Scoring theorems never
inspect concrete transliterations. -/
def unidecodeChar (c : Char) : String :=
  if c.toNat < 128 then ⟨[c]⟩
  else if c == 'é' || c == 'è' || c == 'ê' || c == 'ë' then "e"
  else if c == 'à' || c == 'â' || c == 'ä' then "a"
  else if c == 'î' || c == 'ï' then "i"
  else if c == 'ô' || c == 'ö' then "o"
  else if c == 'ù' || c == 'û' || c == 'ü' then "u"
  else if c == 'ç' then "c"
  else if c == 'œ' then "oe"
  else ""

/-- Model of `unidecode::unidecode`. -/
def unidecodeStr (s : String) : String :=
  ⟨(s.data.map fun c => (unidecodeChar c).data).flatten⟩

namespace ResultScorer

/-- `scoring.rs` lines 19-40: domains whose results are penalized. -/
def urls_blacklist : List String :=
  ["bfmtv.com", "60millions-mag.com", "bbc.com", "jeuxvideo.com",
   "linternaute.fr", "lefigaro.fr", "leparisien.fr", "lequipe.fr",
   "ladepeche.fr", "lepoint.fr", "lejdd.fr", "lesechos.fr", "liberation.fr",
   "lci.fr", "lemondedutabac.com", "16personalities.com", "freecodecamp.org",
   "dev.to", "medium.com", "w3schools.com"]

/-- `scoring.rs` lines 42-68: domains whose results receive a bonus. -/
def relevant_urls : List String :=
  ["github.com", "docs.rs", "react.dev", "wikipedia.org", "stackoverflow.com",
   "youtube.com", "reddit.com", "wordpress.com", "gitlab.com", "bitbucket.org",
   "sourceforge.net", "crates.io", "npmjs.com", "rust-lang.org", "mozilla.org",
   "developer.mozilla.org", "developer.android.com", "developer.apple.com",
   "developer.microsoft.com", "developer.chrome.com",
   "dictionnaire.lerobert.com", "gouv.fr", "openclassrooms.com", "larousse.fr",
   "cnrtl.fr"]

/-- `scoring.rs` lines 70-93: informational-intent bonus words. -/
def bonus_words : List String :=
  ["definition", "meaning", "signification", "sens", "tuto", "tutorial",
   "guide", "cours", "explanation", "explication", "significations", "sens",
   "tutoriel", "guides", "cours", "explications", "wikipedia", "wiki",
   "dictionnaire", "dictionary", "docs", "documentation"]

/-- `scoring.rs` lines 162-179 (`calculate_text_relevance`): weighted blend of
normalized edit-distance similarity, exact-substring indicator and
query-term-presence ratio.  In ℚ the empty-word-list case gives `0/0 = 0`
(Rust `f64` would give NaN there). -/
def calculate_text_relevance (text query : String) : ℚ :=
  let levenshtein_score := normLev text query
  let contains_exact : ℚ := if containsSub text query then 1 else 0
  let query_words := splitWhitespaceM query
  let matching_words : ℚ :=
    ((query_words.filter fun word => containsSub text word).length : ℚ)
  let word_ratio := matching_words / (query_words.length : ℚ)
  3/10 * levenshtein_score + 4/10 * contains_exact + 3/10 * word_ratio

/-- `scoring.rs` lines 12-159 (`score_result`): relevance score of one result
against the query, rounded to two decimal places. -/
def score_result (result : SearchResult) (query : String) : ℚ :=
  let normalized_query := unidecodeStr (lowerStr query)
  let normalized_title := unidecodeStr (lowerStr result.title)
  let normalized_snippet := unidecodeStr (lowerStr result.snippet)
  let normalized_link := unidecodeStr (lowerStr result.link)
  let score : ℚ :=
    calculate_text_relevance normalized_title normalized_query * (5/10)
    + calculate_text_relevance normalized_snippet normalized_query * (3/10)
    + calculate_text_relevance normalized_link query * (2/10)
  let score := if startsWithSub normalized_link "https" then score + 5/10 else score
  let score :=
    if byteLen normalized_snippet < 50 ∨ 150 < byteLen normalized_snippet then
      score * (8/10)
    else score
  let score :=
    if urls_blacklist.any fun u => containsSub normalized_link u then
      score * (25/100)
    else score
  let score :=
    if relevant_urls.any fun u => containsSub normalized_link u then
      score + 3/10
    else score
  let score := if normalized_title == normalized_query then score + 5/10 else score
  let score := if normalized_snippet == normalized_query then score + 75/100 else score
  let score :=
    if bonus_words.any fun w =>
        containsSub normalized_title w || containsSub normalized_snippet w
          || containsSub normalized_link w then
      score + 5/10
    else score
  ((round (score * 100) : ℤ) : ℚ) / 100

end ResultScorer

/-! ## URL normalization and duplicate removal (`scoring.rs` lines 181-228) -/

/-- Model of `url::Url::parse` restricted to hierarchical `http(s)` URLs
without userinfo or port: returns `(host, path)` with the host lowercased and
the path defaulting to `/`, which is what `host_str()` and `path()` yield for
the links this service handles; every other string fails to parse. -/
def parseUrl (url : String) : Option (String × String) :=
  let rest : Option String :=
    if startsWithSub url "https://" then some ⟨url.data.drop 8⟩
    else if startsWithSub url "http://" then some ⟨url.data.drop 7⟩
    else none
  match rest with
  | none => none
  | some r =>
    let host : List Char := r.data.takeWhile fun c => c != '/' && c != '?' && c != '#'
    if host.isEmpty then none
    else
      let walk : List Char := (r.data.drop host.length).takeWhile fun c => c != '?' && c != '#'
      some (lowerStr ⟨host⟩, if walk.isEmpty then "/" else ⟨walk⟩)

namespace ResultScorer

/-- `scoring.rs` lines 204-219: the URL normalization used by `is_duplicate`.
On parse success, take `host ++ path`; either way trim trailing `/`, remove
every occurrence of `"www."`, and lowercase. -/
def normalize_url (url : String) : String :=
  match parseUrl url with
  | some (host, path) =>
    lowerStr (replaceStr (trimEndMatches (host ++ path) '/') "www." "")
  | none =>
    lowerStr (replaceStr (trimEndMatches url '/') "www." "")

/-- `scoring.rs` lines 201-228: two results are duplicates when their
normalized links are equal, or the normalized links have
`normalized_levenshtein` similarity above `0.9`, or the titles are equal, or
the snippets are equal. -/
def is_duplicate (result1 result2 : SearchResult) : Bool :=
  let url1_norm := normalize_url result1.link
  let url2_norm := normalize_url result2.link
  url1_norm == url2_norm
    || decide ((9:ℚ)/10 < normLev url1_norm url2_norm)
    || result1.title == result2.title
    || result1.snippet == result2.snippet

/-- `scoring.rs` lines 182-198 (`remove_duplicates` loop): `seen` accumulates
the results compared against, `unique` the output; both receive exactly the
results that are not duplicates of an earlier kept result. -/
def removeDupGo (seen unique : List SearchResult) :
    List SearchResult → List SearchResult
  | [] => unique
  | r :: rs =>
    if seen.any fun s => is_duplicate r s then removeDupGo seen unique rs
    else removeDupGo (seen ++ [r]) (unique ++ [r]) rs

/-- `scoring.rs` lines 182-198: single-pass first-seen-wins duplicate
removal. -/
def remove_duplicates (results : List SearchResult) : List SearchResult :=
  removeDupGo [] [] results

/-- The spec's phrasing of the same pass: a result is kept iff it is not a
duplicate of any previously kept result. -/
def dedupSpecGo (kept : List SearchResult) :
    List SearchResult → List SearchResult
  | [] => []
  | r :: rs =>
    if kept.any fun s => is_duplicate r s then dedupSpecGo kept rs
    else r :: dedupSpecGo (kept ++ [r]) rs

end ResultScorer

/-! ## Result ordering (`scraper.rs` lines 54-106) -/

/-- Code-point lexicographic comparison of character lists; on UTF-8 strings
this is exactly Rust's byte-lexicographic `str::cmp`. -/
def charListLt : List Char → List Char → Bool
  | [], [] => false
  | [], _ :: _ => true
  | _ :: _, [] => false
  | a :: as, b :: bs => if a < b then true else if b < a then false else charListLt as bs

/-- Model of Rust `str::cmp`. -/
def strCmpB (a b : String) : Ordering :=
  if charListLt a.data b.data then .lt
  else if charListLt b.data a.data then .gt
  else .eq

/-- Model of `f64::partial_cmp(..).unwrap()` on the (non-NaN) scores. -/
def ratCmp (a b : ℚ) : Ordering :=
  if a < b then .lt else if b < a then .gt else .eq

/-- `scraper.rs` lines 68-77 (`impl Ord for SearchResult`): reversed score
comparison, then title, then link. -/
def resultCmp (self other : SearchResult) : Ordering :=
  ((ratCmp other.score self.score).then (strCmpB self.title other.title)).then
    (strCmpB self.link other.link)

/-- `a` sorts no later than `b` under the `SearchResult` order. -/
def resultLeRel (a b : SearchResult) : Prop := resultCmp a b ≠ Ordering.gt

instance : DecidableRel resultLeRel := fun a b => by unfold resultLeRel; infer_instance

/-- `main.rs` lines 136-142: pushing everything into a `BinaryHeap` and
draining with `into_sorted_vec` returns the results sorted ascending by the
`Ord` above.  Like the heap, this comparison sort determines the relative
order of `cmp`-equal elements from their input positions. -/
def sortStage (results : List SearchResult) : List SearchResult :=
  List.insertionSort resultLeRel results

/-- `main.rs` lines 131-134: assign every result its score. -/
def scoreAll (query : String) (results : List SearchResult) : List SearchResult :=
  results.map fun r => { r with score := ResultScorer.score_result r query }

/-! ## Orchestrator (`main.rs`) -/

/-- `error.rs`: the engine error taxonomy. -/
inductive SearchError
  | RequestError (msg : String)
  | ParsingError (msg : String)
  | RateLimited
deriving DecidableEq, Repr

/-- The environment-chosen outcome of one engine's concurrent unit of work:
whether `check_rate_limit` admits it, and what `engine.search` returns if
called. -/
structure SearchOutcome where
  rateLimitAllowed : Bool
  searchResult : Except SearchError (List SearchResult)

/-- `main.rs` lines 97-123: one engine's contribution to the merged list.
A denied rate limit contributes `Vec::new()`; a failed search contributes
`Vec::new()`; a successful search contributes its results. -/
def engineContribution (o : SearchOutcome) : List SearchResult :=
  if !o.rateLimitAllowed then []
  else
    match o.searchResult with
    | .ok results => results
    | .error _ => []

/-- Hexadecimal rendering of a `Nat` (lowercase digits). -/
def natToHex (n : Nat) : String := ⟨Nat.toDigits 16 n⟩

/-- Escaping of one character under Rust's `Debug` formatting of strings. -/
def rustEscapeChar (c : Char) : String :=
  if c == '"' then "\\\""
  else if c == '\\' then "\\\\"
  else if c == '\n' then "\\n"
  else if c == '\t' then "\\t"
  else if c == '\r' then "\\r"
  else if c == '\x00' then "\\0"
  else if c.toNat < 32 then "\\u\x7b" ++ natToHex c.toNat ++ "\x7d"
  else ⟨[c]⟩

/-- Rust `{:?}` formatting of a `&str`: quoted and escaped. -/
def rustDebugStr (s : String) : String :=
  "\"" ++ ⟨(s.data.map fun c => (rustEscapeChar c).data).flatten⟩ ++ "\""

/-- Rust `{:?}` formatting of an `Option<&str>`. -/
def rustDebugOpt : Option String → String
  | none => "None"
  | some s => "Some(" ++ rustDebugStr s ++ ")"

/-- `main.rs` lines 71-78: the search cache key,
`format!("search:{}:{}:{:?}:{:?}:{:?}", query, page.unwrap_or(1), date_range,
region, language)`. -/
def cacheKey (query : String) (page : Option Nat)
    (date_range region language : Option String) : String :=
  "search:" ++ query ++ ":" ++ toString (page.getD 1) ++ ":"
    ++ rustDebugOpt date_range ++ ":" ++ rustDebugOpt region ++ ":"
    ++ rustDebugOpt language

/-- `main.rs` line 157: the autocomplete cache key,
`format!("autocomplete:{}", query)`. -/
def autocompleteKey (query : String) : String := "autocomplete:" ++ query

/-- The cache contents visible to the orchestrator: what `cache.get` returns
for each key (`None` covers both a miss and any backend error, see
`RedisCache.get`). -/
abbrev CacheState := String → Option (List SearchResult)

/-- The environment of one cache-miss search: the outcome of every registered
engine's unit of work in completion order, and whether the write-through
succeeds. -/
structure SearchEnv where
  outcomes : List SearchOutcome
  setOk : Bool

/-- `main.rs` lines 131-145: score, sort, and remove duplicates. -/
def processResults (query : String) (results : List SearchResult) : List SearchResult :=
  ResultScorer.remove_duplicates (sortStage (scoreAll query results))

/-- `main.rs` lines 62-154 (`SearchService::search`): cache-first orchestration.
Returns the result list, the number of outbound engine requests performed
(engines whose rate-limit check passed), and the cache state afterwards. -/
def SearchService.search (cache : CacheState) (query : String) (page : Option Nat)
    (date_range region language : Option String) (env : SearchEnv) :
    List SearchResult × Nat × CacheState :=
  let cache_key := cacheKey query page date_range region language
  match cache cache_key with
  | some cached_results => (cached_results, 0, cache)
  | none =>
    let all_results := (env.outcomes.map engineContribution).flatten
    let final_results := processResults query all_results
    let calls := env.outcomes.countP fun o => o.rateLimitAllowed
    let cache' : CacheState :=
      if env.setOk then fun k => if k = cache_key then some final_results else cache k
      else cache
    (final_results, calls, cache')

/-! ## Cache access (`cache.rs` lines 34-49) -/

/-- `bb8::RunError`: pool acquisition failure. -/
inductive RunError
  | user (e : String)
  | timedOut
deriving DecidableEq, Repr

/-- The shape of a `redis::RedisError` the model distinguishes. -/
inductive RedisErrorKind
  | ioError (msg : String)
  | other (msg : String)
deriving DecidableEq, Repr

/-- `cache.rs` lines 34-49 (`RedisCache::get`): acquire a pooled connection
(mapping a pool timeout to an I/O error), run `GET`, deserialize; every
failure short-circuits to `None` via `.ok()?` / `.ok()`. -/
def RedisCache.get {T : Type} (pool : Except RunError Unit)
    (cmd : Except RedisErrorKind (Option String)) (deser : String → Option T) :
    Option T :=
  let conn : Except RedisErrorKind Unit :=
    match pool with
    | .ok c => .ok c
    | .error (.user e) => .error (.other e)
    | .error .timedOut => .error (.ioError "Connection timed out")
  match conn with
  | .error _ => none
  | .ok _ =>
    match cmd with
    | .error _ => none
    | .ok result => result.bind fun s => deser s

/-! ## Engine adapters (`scraper.rs` lines 279-507) -/

/-- Wrapping `u32` multiplication. -/
def u32mul (a b : Nat) : Nat := (a * b) % 2 ^ 32

/-- Wrapping `u32` subtraction (operands already reduced mod `2 ^ 32`). -/
def u32sub (a b : Nat) : Nat := (a % 2 ^ 32 + 2 ^ 32 - b % 2 ^ 32) % 2 ^ 32

/-- `scraper.rs` lines 285-287. -/
def GoogleScraper.base_url : String := "https://www.google.com/search"

/-- `scraper.rs` lines 289-307 (`GoogleScraper::search`): the request URL,
with `start = (page - 1) * 10` only when `page > 1`, else `0`. -/
def GoogleScraper.searchUrl (query : String) (page : Nat) : String :=
  let start := if 1 < page then u32mul (u32sub page 1) 10 else 0
  GoogleScraper.base_url ++ "?q=" ++ query ++ "&start=" ++ toString start
    ++ "&num=10&hl=fr"

/-- `scraper.rs` lines 438-440. -/
def DuckDuckGoScraper.base_url : String := "https://html.duckduckgo.com/html"

/-- `scraper.rs` lines 442-458 (`DuckDuckGoScraper::search`): the request URL;
any `page ≠ 1` (including `0`) takes the pagination branch computing
`(page - 1) * 10` on `u32`. -/
def DuckDuckGoScraper.searchUrl (query : String) (page : Nat) : String :=
  if page == 1 then DuckDuckGoScraper.base_url ++ "?q=" ++ query
  else
    DuckDuckGoScraper.base_url ++ "?q=" ++ query ++ "&s="
      ++ toString (u32mul (u32sub page 1) 10)

/-- `scraper.rs` lines 316-355 (closure of `GoogleScraper::parse_results`):
build one result from the extracted fragments; `title`/`link` are required,
a non-`http` link is dropped, a missing snippet defaults to `""`. -/
def GoogleScraper.parseItem (title link snippet favicon site_name : Option String)
    (breadcrumbs : List Breadcrumb) : Option SearchResult :=
  match title, link with
  | some t, some l =>
    if !(startsWithSub l "http") then none
    else
      some { title := t, link := l, snippet := snippet.getD "",
             source := "Google", score := 0, favicon_url := favicon,
             site_name := site_name, breadcrumbs := breadcrumbs }
  | _, _ => none

/-- `scraper.rs` lines 467-505 (closure of `DuckDuckGoScraper::parse_results`):
build one result from the extracted fragments; a missing snippet defaults to
`""` before trimming. -/
def DuckDuckGoScraper.parseItem (title link snippet favicon : Option String)
    (breadcrumbs : List Breadcrumb) : Option SearchResult :=
  match title, link with
  | some t, some l =>
    some { title := trimWS t,
           link := "https://" ++ trimStartNonAlnum l,
           snippet := trimWS (snippet.getD ""),
           source := "DuckDuckGo", score := 0, favicon_url := favicon,
           site_name := none, breadcrumbs := breadcrumbs }
  | _, _ => none

/-! ## Spec-side definitions (for refinement comparisons) -/

/-- Modelled from the spec: the claimed link normalization — "parse the URL,
keep host+path, strip a leading `www.`, strip trailing slash, lowercase"
(§4.4); on parse failure the same trims on the raw string, minus the
host+path step. -/
def specNormalizeUrl (url : String) : String :=
  match parseUrl url with
  | some (host, path) =>
    let hp := host ++ path
    let hp : String := if startsWithSub hp "www." then ⟨hp.data.drop 4⟩ else hp
    lowerStr (trimEndMatches hp '/')
  | none => lowerStr (trimEndMatches url '/')

/-- Modelled from the spec: the claimed duplicate predicate of §4.4 — equal
spec-normalized links, or spec-normalized-link similarity above `0.9`, or
equal titles, or equal snippets. -/
def specIsDuplicate (r1 r2 : SearchResult) : Bool :=
  let u1 := specNormalizeUrl r1.link
  let u2 := specNormalizeUrl r2.link
  u1 == u2 || decide ((9:ℚ)/10 < normLev u1 u2)
    || r1.title == r2.title || r1.snippet == r2.snippet

/-- Modelled from the spec: the claimed cache-key scheme
`"search:{query}:{page}:{dateRange}:{region}:{language}"` (§6) with the
parameter values interpolated directly (an absent optional contributing its
empty rendering). -/
def specCacheKey (query : String) (page : Option Nat)
    (date_range region language : Option String) : String :=
  "search:" ++ query ++ ":" ++ toString (page.getD 1) ++ ":"
    ++ date_range.getD "" ++ ":" ++ region.getD "" ++ ":" ++ language.getD ""

/-! ## Duplicate-removal lemmas -/

namespace ResultScorer

theorem removeDupGo_eq (l : List SearchResult) : ∀ seen unique,
    removeDupGo seen unique l = unique ++ dedupSpecGo seen l := by
  induction l with
  | nil => intro seen unique; simp [removeDupGo, dedupSpecGo]
  | cons r rs ih =>
    intro seen unique
    by_cases h : (seen.any fun s => is_duplicate r s) = true
    · simp [removeDupGo, dedupSpecGo, h, ih]
    · simp [removeDupGo, dedupSpecGo, h, ih]

theorem remove_duplicates_eq_spec (l : List SearchResult) :
    remove_duplicates l = dedupSpecGo [] l := by
  simpa [remove_duplicates] using removeDupGo_eq l [] []

/-- The output shape of the dedup pass: each element is not a duplicate of any
element of `kept` nor of any earlier output element. -/
def dedupChain (kept : List SearchResult) : List SearchResult → Prop
  | [] => True
  | r :: rs => (kept.any fun s => is_duplicate r s) = false ∧ dedupChain (kept ++ [r]) rs

theorem dedupChain_dedupSpecGo (l : List SearchResult) : ∀ kept,
    dedupChain kept (dedupSpecGo kept l) := by
  induction l with
  | nil => intro kept; simp [dedupSpecGo, dedupChain]
  | cons r rs ih =>
    intro kept
    by_cases h : (kept.any fun s => is_duplicate r s) = true
    · simpa [dedupSpecGo, h] using ih kept
    · rw [show dedupSpecGo kept (r :: rs) = r :: dedupSpecGo (kept ++ [r]) rs from by
        simp [dedupSpecGo, h]]
      exact ⟨Bool.eq_false_iff.mpr h, ih (kept ++ [r])⟩

theorem dedupSpecGo_of_chain : ∀ (o : List SearchResult) (kept : List SearchResult),
    dedupChain kept o → dedupSpecGo kept o = o := by
  intro o
  induction o with
  | nil => intro kept _; simp [dedupSpecGo]
  | cons r rest ih =>
    intro kept h
    obtain ⟨h1, h2⟩ := h
    simp [dedupSpecGo, h1, ih _ h2]

theorem chain_mem_and_pairwise : ∀ (o kept : List SearchResult), dedupChain kept o →
    (∀ b ∈ o, ∀ s ∈ kept, is_duplicate b s = false) ∧
      o.Pairwise fun a b => is_duplicate b a = false := by
  intro o
  induction o with
  | nil => intro kept _; simp
  | cons r rest ih =>
    intro kept h
    obtain ⟨h1, h2⟩ := h
    obtain ⟨ihmem, ihpw⟩ := ih (kept ++ [r]) h2
    have h1' : ∀ s ∈ kept, is_duplicate r s = false := by
      intro s hs
      exact Bool.eq_false_iff.mpr ((List.any_eq_false.mp h1) s hs)
    refine ⟨?_, ?_⟩
    · intro b hb s hs
      rcases List.mem_cons.mp hb with hb | hb
      · exact hb ▸ h1' s hs
      · exact ihmem b hb s (List.mem_append_left _ hs)
    · rw [List.pairwise_cons]
      exact ⟨fun b hb => ihmem b hb r (by simp), ihpw⟩

theorem dedupSpecGo_sublist : ∀ (l kept : List SearchResult),
    (dedupSpecGo kept l).Sublist l := by
  intro l
  induction l with
  | nil => intro kept; simp [dedupSpecGo]
  | cons r rs ih =>
    intro kept
    by_cases h : (kept.any fun s => is_duplicate r s) = true
    · simpa [dedupSpecGo, h] using (ih kept).cons r
    · simpa [dedupSpecGo, h] using (ih (kept ++ [r])).cons₂ r

theorem remove_duplicates_cons_head (r : SearchResult) (l : List SearchResult) :
    remove_duplicates (r :: l) = r :: dedupSpecGo [r] l := by
  rw [remove_duplicates_eq_spec]
  simp [dedupSpecGo]

theorem not_mem_dedupSpecGo_of_dup (r2 s : SearchResult) (l kept : List SearchResult)
    (hs : s ∈ kept) (hdup : is_duplicate r2 s = true) :
    r2 ∉ dedupSpecGo kept l := by
  intro hmem
  have h := (chain_mem_and_pairwise _ _ (dedupChain_dedupSpecGo l kept)).1 r2 hmem s hs
  rw [hdup] at h
  cases h

theorem is_duplicate_of_snippet_eq (r1 r2 : SearchResult)
    (h : r1.snippet = r2.snippet) : is_duplicate r1 r2 = true := by
  simp [is_duplicate, h]

theorem is_duplicate_of_norm_eq (r1 r2 : SearchResult)
    (h : normalize_url r1.link = normalize_url r2.link) :
    is_duplicate r1 r2 = true := by
  simp [is_duplicate, h]

theorem countP_snippet_le_one : ∀ l : List SearchResult,
    l.Pairwise (fun a b => a.snippet ≠ b.snippet) →
    l.countP (fun r => r.snippet == "") ≤ 1 := by
  intro l
  induction l with
  | nil => intro _; simp
  | cons r rest ih =>
    intro h
    rw [List.pairwise_cons] at h
    obtain ⟨hr, hrest⟩ := h
    rw [List.countP_cons]
    by_cases hre : r.snippet = ""
    · have hz : rest.countP (fun r => r.snippet == "") = 0 := by
        rw [List.countP_eq_zero]
        intro b hb
        simp only [beq_iff_eq]
        intro hb0
        exact hr b hb (by rw [hre, hb0])
      simp [hz, hre]
    · have hb : (r.snippet == "") = false := by simpa using hre
      simpa [hb] using ih hrest

theorem remove_duplicates_pairwise (l : List SearchResult) :
    (remove_duplicates l).Pairwise fun a b => is_duplicate b a = false := by
  rw [remove_duplicates_eq_spec]
  exact (chain_mem_and_pairwise _ _ (dedupChain_dedupSpecGo l [])).2

theorem remove_duplicates_idem (l : List SearchResult) :
    remove_duplicates (remove_duplicates l) = remove_duplicates l := by
  rw [remove_duplicates_eq_spec l, remove_duplicates_eq_spec]
  exact dedupSpecGo_of_chain _ [] (dedupChain_dedupSpecGo l [])

end ResultScorer

/-! ## Order-theoretic facts about the result comparison -/

theorem charListLt_irrefl : ∀ x : List Char, charListLt x x = false := by
  intro x
  induction x with
  | nil => rfl
  | cons a as ih => simp [charListLt, lt_irrefl, ih]

theorem charListLt_asymm : ∀ x y : List Char,
    charListLt x y = true → charListLt y x = false := by
  intro x
  induction x with
  | nil =>
    intro y h
    cases y with
    | nil => simp [charListLt] at h
    | cons b bs => rfl
  | cons a as ih =>
    intro y h
    cases y with
    | nil => simp [charListLt] at h
    | cons b bs =>
      rcases lt_trichotomy a b with h1 | h1 | h1
      · simp [charListLt, h1, lt_asymm h1]
      · subst h1
        simp only [charListLt, lt_irrefl, if_false] at h ⊢
        exact ih bs h
      · simp [charListLt, h1, lt_asymm h1] at h

theorem charListLt_eq_of_not : ∀ x y : List Char,
    charListLt x y = false → charListLt y x = false → x = y := by
  intro x
  induction x with
  | nil =>
    intro y h _
    cases y with
    | nil => rfl
    | cons b bs => simp [charListLt] at h
  | cons a as ih =>
    intro y h h'
    cases y with
    | nil => simp [charListLt] at h'
    | cons b bs =>
      rcases lt_trichotomy a b with h1 | h1 | h1
      · simp [charListLt, h1] at h
      · subst h1
        simp only [charListLt, lt_irrefl, if_false] at h h'
        rw [ih bs h h']
      · simp [charListLt, h1, lt_asymm h1] at h'

theorem charListLt_tri (x y : List Char) :
    charListLt x y = true ∨ x = y ∨ charListLt y x = true := by
  by_cases h : charListLt x y = true
  · exact Or.inl h
  · by_cases h' : charListLt y x = true
    · exact Or.inr (Or.inr h')
    · exact Or.inr (Or.inl (charListLt_eq_of_not x y
        (Bool.eq_false_iff.mpr h) (Bool.eq_false_iff.mpr h')))

theorem charListLt_trans : ∀ x y z : List Char,
    charListLt x y = true → charListLt y z = true → charListLt x z = true := by
  intro x
  induction x with
  | nil =>
    intro y z h h'
    cases y with
    | nil => simp [charListLt] at h
    | cons b bs =>
      cases z with
      | nil => simp [charListLt] at h'
      | cons c cs => rfl
  | cons a as ih =>
    intro y z h h'
    cases y with
    | nil => simp [charListLt] at h
    | cons b bs =>
      cases z with
      | nil => simp [charListLt] at h'
      | cons c cs =>
        rcases lt_trichotomy a b with h1 | h1 | h1
        · rcases lt_trichotomy b c with h2 | h2 | h2
          · simp [charListLt, lt_trans h1 h2]
          · subst h2
            simp [charListLt, h1]
          · simp [charListLt, h2, lt_asymm h2] at h'
        · subst h1
          simp only [charListLt, lt_irrefl, if_false] at h
          rcases lt_trichotomy a c with h2 | h2 | h2
          · simp [charListLt, h2]
          · subst h2
            simp only [charListLt, lt_irrefl, if_false] at h' ⊢
            exact ih bs cs h h'
          · simp [charListLt, h2, lt_asymm h2] at h'
        · simp [charListLt, h1, lt_asymm h1] at h

theorem charListLt_false_trans (a b c : List Char)
    (f1 : charListLt b a = false) (f2 : charListLt c b = false) :
    charListLt c a = false := by
  by_contra hx
  have h : charListLt c a = true := Bool.of_not_eq_false hx
  rcases charListLt_tri c b with h1 | h1 | h1
  · rw [f2] at h1; cases h1
  · subst h1
    rw [f1] at h; cases h
  · rcases charListLt_tri b a with h2 | h2 | h2
    · rw [f1] at h2; cases h2
    · subst h2
      have hf := charListLt_asymm _ _ h1
      rw [hf] at h; cases h
    · have hac := charListLt_trans _ _ _ h2 h1
      have hf := charListLt_asymm _ _ hac
      rw [hf] at h; cases h

theorem string_eq_of_data (a b : String) (h : a.data = b.data) : a = b :=
  congrArg String.mk h

theorem strCmpB_eq_iff (a b : String) : strCmpB a b = .eq ↔ a = b := by
  constructor
  · intro h
    unfold strCmpB at h
    by_cases h1 : charListLt a.data b.data = true
    · simp [h1] at h
    · by_cases h2 : charListLt b.data a.data = true
      · simp [h1, h2] at h
      · exact string_eq_of_data a b (charListLt_eq_of_not _ _
          (Bool.eq_false_iff.mpr h1) (Bool.eq_false_iff.mpr h2))
  · intro h
    subst h
    simp [strCmpB, charListLt_irrefl]

theorem strCmpB_lt_iff (a b : String) :
    strCmpB a b = .lt ↔ charListLt a.data b.data = true := by
  unfold strCmpB
  by_cases h1 : charListLt a.data b.data = true
  · simp [h1]
  · by_cases h2 : charListLt b.data a.data = true <;> simp [h1, h2]

theorem strCmpB_gt_iff (a b : String) :
    strCmpB a b = .gt ↔ charListLt b.data a.data = true := by
  unfold strCmpB
  by_cases h1 : charListLt a.data b.data = true
  · simp [h1, charListLt_asymm _ _ h1]
  · by_cases h2 : charListLt b.data a.data = true <;> simp [h1, h2]

theorem strCmpB_ne_gt_iff (a b : String) :
    strCmpB a b ≠ .gt ↔ charListLt b.data a.data = false := by
  constructor
  · intro h
    by_contra hx
    exact h ((strCmpB_gt_iff a b).mpr (Bool.of_not_eq_false hx))
  · intro h hg
    rw [(strCmpB_gt_iff a b).mp hg] at h
    cases h

theorem ratCmp_lt_iff (a b : ℚ) : ratCmp a b = .lt ↔ a < b := by
  unfold ratCmp
  by_cases h : a < b
  · simp [h]
  · by_cases h' : b < a <;> simp [h, h']

theorem ratCmp_gt_iff (a b : ℚ) : ratCmp a b = .gt ↔ b < a := by
  unfold ratCmp
  by_cases h : a < b
  · simp [h, lt_asymm h]
  · by_cases h' : b < a <;> simp [h, h']

theorem ratCmp_eq_iff (a b : ℚ) : ratCmp a b = .eq ↔ a = b := by
  unfold ratCmp
  by_cases h : a < b
  · simp [h, ne_of_lt h]
  · by_cases h' : b < a
    · simp [h, h', (ne_of_lt h').symm]
    · simp [h, h', le_antisymm (not_lt.mp h') (not_lt.mp h)]

/-- The result order in explicit form: strictly greater score first; on equal
scores ascending title; on equal titles ascending link. -/
theorem resultLe_iff (a b : SearchResult) :
    resultLeRel a b ↔ (b.score < a.score ∨ (a.score = b.score ∧
      (charListLt a.title.data b.title.data = true ∨
        (a.title = b.title ∧ charListLt b.link.data a.link.data = false)))) := by
  unfold resultLeRel resultCmp
  rcases lt_trichotomy b.score a.score with h | h | h
  · rw [(ratCmp_lt_iff _ _).mpr h]
    simp [Ordering.then, h]
  · rw [(ratCmp_eq_iff _ _).mpr h]
    cases ht : strCmpB a.title b.title with
    | lt =>
      simp only [Ordering.then]
      constructor
      · intro _
        exact Or.inr ⟨h.symm, Or.inl ((strCmpB_lt_iff _ _).mp ht)⟩
      · intro _
        simp
    | eq =>
      have hte := (strCmpB_eq_iff _ _).mp ht
      simp only [Ordering.then]
      rw [strCmpB_ne_gt_iff]
      constructor
      · intro hl
        exact Or.inr ⟨h.symm, Or.inr ⟨hte, hl⟩⟩
      · rintro (hs | ⟨_, htl | ⟨_, hl⟩⟩)
        · rw [h] at hs
          exact absurd hs (lt_irrefl _)
        · rw [hte, charListLt_irrefl] at htl
          cases htl
        · exact hl
    | gt =>
      have htg := (strCmpB_gt_iff _ _).mp ht
      simp only [Ordering.then]
      constructor
      · intro hgg
        exact absurd rfl hgg
      · rintro (hs | ⟨_, htl | ⟨hte, _⟩⟩)
        · rw [h] at hs
          exact absurd hs (lt_irrefl _)
        · rw [charListLt_asymm _ _ htg] at htl
          cases htl
        · rw [hte, charListLt_irrefl] at htg
          cases htg
  · rw [(ratCmp_gt_iff _ _).mpr h]
    simp only [Ordering.then]
    constructor
    · intro hgg
      exact absurd rfl hgg
    · rintro (hs | ⟨hse, _⟩)
      · exact absurd (lt_trans h hs) (lt_irrefl _)
      · exact absurd hse (ne_of_lt h)

theorem resultLe_total (a b : SearchResult) : resultLeRel a b ∨ resultLeRel b a := by
  rw [resultLe_iff, resultLe_iff]
  rcases lt_trichotomy a.score b.score with h | h | h
  · right; left; exact h
  · rcases charListLt_tri a.title.data b.title.data with ht | ht | ht
    · left; right; exact ⟨h, Or.inl ht⟩
    · have hte : a.title = b.title := string_eq_of_data _ _ ht
      cases hcl : charListLt b.link.data a.link.data
      · left; right; exact ⟨h, Or.inr ⟨hte, rfl⟩⟩
      · right; right
        exact ⟨h.symm, Or.inr ⟨hte.symm, charListLt_asymm _ _ hcl⟩⟩
    · right; right; exact ⟨h.symm, Or.inl ht⟩
  · left; left; exact h

theorem resultLe_trans (a b c : SearchResult)
    (hab : resultLeRel a b) (hbc : resultLeRel b c) : resultLeRel a c := by
  rw [resultLe_iff] at hab hbc ⊢
  rcases hab with h1 | ⟨e1, t1⟩
  · rcases hbc with h2 | ⟨e2, t2⟩
    · exact Or.inl (lt_trans h2 h1)
    · rw [e2] at h1
      exact Or.inl h1
  · rcases hbc with h2 | ⟨e2, t2⟩
    · rw [← e1] at h2
      exact Or.inl h2
    · refine Or.inr ⟨e1.trans e2, ?_⟩
      rcases t1 with ht1 | ⟨hte1, hl1⟩
      · rcases t2 with ht2 | ⟨hte2, hl2⟩
        · exact Or.inl (charListLt_trans _ _ _ ht1 ht2)
        · rw [hte2] at ht1
          exact Or.inl ht1
      · rcases t2 with ht2 | ⟨hte2, hl2⟩
        · rw [hte1]
          exact Or.inl ht2
        · exact Or.inr ⟨hte1.trans hte2,
            charListLt_false_trans a.link.data b.link.data c.link.data hl1 hl2⟩

instance : IsTotal SearchResult resultLeRel := ⟨resultLe_total⟩

instance : IsTrans SearchResult resultLeRel := ⟨resultLe_trans⟩

theorem resultLe_antisymm_fields (a b : SearchResult)
    (h1 : resultLeRel a b) (h2 : resultLeRel b a) :
    a.score = b.score ∧ a.title = b.title ∧ a.link = b.link := by
  rw [resultLe_iff] at h1 h2
  rcases h1 with hs1 | ⟨e1, t1⟩
  · rcases h2 with hs2 | ⟨e2, t2⟩
    · exact absurd hs2 (lt_asymm hs1)
    · rw [e2] at hs1
      exact absurd hs1 (lt_irrefl _)
  · rcases h2 with hs2 | ⟨e2, t2⟩
    · rw [e1] at hs2
      exact absurd hs2 (lt_irrefl _)
    · refine ⟨e1, ?_⟩
      rcases t1 with ht1 | ⟨hte1, hl1⟩
      · rcases t2 with ht2 | ⟨hte2, hl2⟩
        · rw [charListLt_asymm _ _ ht1] at ht2
          cases ht2
        · rw [hte2] at ht1
          rw [charListLt_irrefl] at ht1
          cases ht1
      · rcases t2 with ht2 | ⟨hte2, hl2⟩
        · rw [hte1] at ht2
          rw [charListLt_irrefl] at ht2
          cases ht2
        · exact ⟨hte1, string_eq_of_data _ _ (charListLt_eq_of_not _ _ hl2 hl1)⟩

theorem sortStage_perm (l : List SearchResult) : (sortStage l).Perm l :=
  List.perm_insertionSort resultLeRel l

theorem sortStage_sorted (l : List SearchResult) :
    (sortStage l).Pairwise resultLeRel :=
  List.sorted_insertionSort resultLeRel l

/-- Two sorted lists with the same elements agree, provided no two distinct
elements of the first share score, title and link. -/
theorem sorted_perm_unique : ∀ (l1 l2 : List SearchResult),
    l1.Pairwise resultLeRel → l2.Pairwise resultLeRel → l1.Perm l2 →
    (∀ a ∈ l1, ∀ b ∈ l1,
      a.score = b.score → a.title = b.title → a.link = b.link → a = b) →
    l1 = l2 := by
  intro l1
  induction l1 with
  | nil =>
    intro l2 _ _ hp _
    exact hp.nil_eq
  | cons a t1 ih =>
    intro l2 hs1 hs2 hp hinj
    cases l2 with
    | nil =>
      have := hp.eq_nil
      cases this
    | cons b t2 =>
      by_cases hab : a = b
      · subst hab
        have hp' := hp.cons_inv
        have hs1' := (List.pairwise_cons.mp hs1).2
        have hs2' := (List.pairwise_cons.mp hs2).2
        rw [ih t2 hs1' hs2' hp' fun x hx y hy =>
          hinj x (List.mem_cons_of_mem _ hx) y (List.mem_cons_of_mem _ hy)]
      · exfalso
        have hbmem : b ∈ a :: t1 := hp.symm.subset (List.mem_cons_self b t2)
        have hamem : a ∈ b :: t2 := hp.subset (List.mem_cons_self a t1)
        have hb_t1 : b ∈ t1 := by
          rcases List.mem_cons.mp hbmem with h | h
          · exact absurd h.symm hab
          · exact h
        have ha_t2 : a ∈ t2 := by
          rcases List.mem_cons.mp hamem with h | h
          · exact absurd h hab
          · exact h
        have hle1 : resultLeRel a b := (List.pairwise_cons.mp hs1).1 b hb_t1
        have hle2 : resultLeRel b a := (List.pairwise_cons.mp hs2).1 a ha_t2
        obtain ⟨es, et, el⟩ := resultLe_antisymm_fields a b hle1 hle2
        exact hab (hinj a (List.mem_cons_self a t1) b
          (List.mem_cons_of_mem _ hb_t1) es et el)

/-! ## Orchestrator lemmas -/

theorem engineContribution_eq_nil (o : SearchOutcome)
    (h : o.rateLimitAllowed = false ∨ ∃ e, o.searchResult = Except.error e) :
    engineContribution o = [] := by
  rcases h with h | ⟨e, h⟩
  · simp [engineContribution, h]
  · cases ho : o.rateLimitAllowed
    · simp [engineContribution, ho]
    · simp [engineContribution, ho, h]

theorem engineContribution_ok (o : SearchOutcome) (rs : List SearchResult)
    (h1 : o.rateLimitAllowed = true) (h2 : o.searchResult = Except.ok rs) :
    engineContribution o = rs := by
  simp [engineContribution, h1, h2]

theorem search_miss (cache : CacheState) (query : String) (page : Option Nat)
    (dr rg lang : Option String) (env : SearchEnv)
    (hmiss : cache (cacheKey query page dr rg lang) = none) :
    SearchService.search cache query page dr rg lang env =
      (processResults query ((env.outcomes.map engineContribution).flatten),
       env.outcomes.countP (fun o => o.rateLimitAllowed),
       if env.setOk then
         fun k => if k = cacheKey query page dr rg lang then
           some (processResults query ((env.outcomes.map engineContribution).flatten))
         else cache k
       else cache) := by
  unfold SearchService.search
  simp only [hmiss]

theorem search_hit (cache : CacheState) (query : String) (page : Option Nat)
    (dr rg lang : Option String) (env : SearchEnv) (rs : List SearchResult)
    (hhit : cache (cacheKey query page dr rg lang) = some rs) :
    SearchService.search cache query page dr rg lang env = (rs, 0, cache) := by
  unfold SearchService.search
  simp only [hhit]

/-! ## Claims -/

/-- C1: `SearchService::search` never surfaces an engine failure: a unit whose
rate-limit check is denied or whose `search` call fails contributes `[]` (and
the model's return type is a plain result list, never an error), and when one
of two engines fails while the other returns 3 results the final output is
the score/sort/dedup pipeline applied to exactly those 3 results, in either
completion order. -/
theorem C1_engine_failure_isolated :
    (∀ o : SearchOutcome,
      (o.rateLimitAllowed = false ∨ ∃ e, o.searchResult = Except.error e) →
      engineContribution o = []) ∧
    (∀ (cache : CacheState) (query : String) (page : Option Nat)
        (dr rg lang : Option String) (o1 o2 : SearchOutcome)
        (rs : List SearchResult) (setOk : Bool),
      cache (cacheKey query page dr rg lang) = none →
      (o1.rateLimitAllowed = false ∨ ∃ e, o1.searchResult = Except.error e) →
      o2.rateLimitAllowed = true → o2.searchResult = Except.ok rs →
      rs.length = 3 →
      (SearchService.search cache query page dr rg lang ⟨[o1, o2], setOk⟩).1
          = processResults query rs ∧
        (SearchService.search cache query page dr rg lang ⟨[o2, o1], setOk⟩).1
          = processResults query rs) := by
  refine ⟨engineContribution_eq_nil, ?_⟩
  intro cache query page dr rg lang o1 o2 rs setOk hmiss h1 h2a h2b _
  have e1 := engineContribution_eq_nil o1 h1
  have e2 := engineContribution_ok o2 rs h2a h2b
  constructor
  · rw [search_miss cache query page dr rg lang _ hmiss]
    simp [e1, e2]
  · rw [search_miss cache query page dr rg lang _ hmiss]
    simp [e1, e2]

/-- Concrete three-result list used by witnesses. -/
def wrs : List SearchResult :=
  [⟨"a", "https://a.com/1", "sa", "Google", 0, none, none, []⟩,
   ⟨"b", "https://b.com/2", "sb", "Google", 0, none, none, []⟩,
   ⟨"c", "https://c.com/3", "sc", "Google", 0, none, none, []⟩]

/-- Witness for C1 at a concrete failing engine and a concrete 3-result
engine. -/
theorem C1_engine_failure_isolated_witness :
    engineContribution ⟨false, Except.ok []⟩ = [] ∧
    (SearchService.search (fun _ => none) "q" none none none none
        ⟨[⟨true, Except.error SearchError.RateLimited⟩, ⟨true, Except.ok wrs⟩],
         true⟩).1
      = processResults "q" wrs :=
  ⟨C1_engine_failure_isolated.1 ⟨false, Except.ok []⟩ (Or.inl rfl),
   (C1_engine_failure_isolated.2 (fun _ => none) "q" none none none none
      ⟨true, Except.error SearchError.RateLimited⟩ ⟨true, Except.ok wrs⟩ wrs true
      rfl (Or.inr ⟨SearchError.RateLimited, rfl⟩) rfl rfl rfl).1⟩

/-- C2: on a cache hit `SearchService::search` returns the cached sequence
unchanged with zero outbound engine requests and an unchanged cache; and after
a cache-miss call whose write-through succeeds, a second call with identical
parameters returns the first call's exact output with zero outbound engine
requests. -/
theorem C2_cache_hit_idempotent (cache : CacheState) (query : String)
    (page : Option Nat) (dr rg lang : Option String) (env : SearchEnv)
    (rs : List SearchResult) :
    (cache (cacheKey query page dr rg lang) = some rs →
      SearchService.search cache query page dr rg lang env = (rs, 0, cache)) ∧
    (cache (cacheKey query page dr rg lang) = none → env.setOk = true →
      ∀ env2 : SearchEnv,
        SearchService.search
            (SearchService.search cache query page dr rg lang env).2.2
            query page dr rg lang env2
          = ((SearchService.search cache query page dr rg lang env).1, 0,
             (SearchService.search cache query page dr rg lang env).2.2)) := by
  constructor
  · intro h
    exact search_hit cache query page dr rg lang env rs h
  · intro hmiss hset env2
    rw [search_miss cache query page dr rg lang env hmiss]
    simp only [hset, if_true]
    exact search_hit _ query page dr rg lang env2 _ (if_pos rfl)

/-- Witness for C2: a concrete hit returns the cached list, and a concrete
miss-then-hit pair returns identical output with no second fan-out. -/
theorem C2_cache_hit_idempotent_witness :
    SearchService.search (fun _ => some wrs) "q" none none none none ⟨[], true⟩
        = (wrs, 0, fun _ => some wrs) ∧
    SearchService.search
        (SearchService.search (fun _ => none) "q" none none none none
          ⟨[], true⟩).2.2 "q" none none none none ⟨[], false⟩
      = ((SearchService.search (fun _ => none) "q" none none none none
            ⟨[], true⟩).1, 0,
         (SearchService.search (fun _ => none) "q" none none none none
            ⟨[], true⟩).2.2) :=
  ⟨(C2_cache_hit_idempotent (fun _ => some wrs) "q" none none none none
      ⟨[], true⟩ wrs).1 rfl,
   (C2_cache_hit_idempotent (fun _ => none) "q" none none none none
      ⟨[], true⟩ []).2 rfl rfl ⟨[], false⟩⟩

/-- Two results the `SearchResult` comparison cannot distinguish (equal score,
title and link) that nevertheless differ (snippet, source). -/
def tieA : SearchResult :=
  ⟨"t", "https://a.com/x", "s1", "Google", 0, none, none, []⟩

/-- Companion of `tieA` with a different snippet and source. -/
def tieB : SearchResult :=
  ⟨"t", "https://a.com/x", "s2", "DuckDuckGo", 0, none, none, []⟩

/-- Companion of `tieA` with a different title (distinct sort key). -/
def tieC : SearchResult :=
  ⟨"u", "https://a.com/x", "s3", "Google", 0, none, none, []⟩

theorem tie_le_le : resultLeRel tieA tieB ∧ resultLeRel tieB tieA :=
  ⟨(resultLe_iff _ _).mpr (Or.inr ⟨rfl, Or.inr ⟨rfl, charListLt_irrefl _⟩⟩),
   (resultLe_iff _ _).mpr (Or.inr ⟨rfl, Or.inr ⟨rfl, charListLt_irrefl _⟩⟩)⟩

/-- C3 fails as stated: for two results with equal score, title and link but
different snippet/source fields, the two input orders of the same multiset
produce different output sequences (any comparison-based sort, the
`BinaryHeap` drain included, applies an input-order-dependent permutation to
comparison-equal elements). -/
theorem C3_counterexample :
    ([tieA, tieB] : List SearchResult).Perm [tieB, tieA] ∧
    sortStage [tieA, tieB] ≠ sortStage [tieB, tieA] := by
  refine ⟨List.Perm.swap tieB tieA [], ?_⟩
  have e1 : sortStage [tieA, tieB] = [tieA, tieB] := by
    simp only [sortStage, List.insertionSort, List.orderedInsert]
    rw [if_pos tie_le_le.1]
  have e2 : sortStage [tieB, tieA] = [tieB, tieA] := by
    simp only [sortStage, List.insertionSort, List.orderedInsert]
    rw [if_pos tie_le_le.2]
  rw [e1, e2]
  intro h
  injection h with h1 _
  exact absurd (congrArg SearchResult.snippet h1) (by decide)

/-- C3 amended: the sort stage's output is a function of the input multiset
alone, provided no two distinct input results share all three of score, title
and link (the fields the `Ord` instance compares). -/
theorem C3_amended (l1 l2 : List SearchResult) (hperm : l1.Perm l2)
    (hinj : ∀ a ∈ l1, ∀ b ∈ l1,
      a.score = b.score → a.title = b.title → a.link = b.link → a = b) :
    sortStage l1 = sortStage l2 := by
  refine sorted_perm_unique _ _ (sortStage_sorted l1) (sortStage_sorted l2)
    ((sortStage_perm l1).trans (hperm.trans (sortStage_perm l2).symm)) ?_
  intro a ha b hb
  exact hinj a ((sortStage_perm l1).subset ha) b ((sortStage_perm l1).subset hb)

/-- Witness for C3 amended: two key-distinct results sort identically from
either input order. -/
theorem C3_amended_witness :
    sortStage [tieA, tieC] = sortStage [tieC, tieA] :=
  C3_amended [tieA, tieC] [tieC, tieA] (List.Perm.swap tieC tieA []) (by
    intro a ha b hb h1 h2 h3
    simp only [List.mem_cons, List.not_mem_nil, or_false] at ha hb
    rcases ha with ha | ha <;> rcases hb with hb | hb <;> subst ha <;> subst hb
    · rfl
    · exact absurd h2 (by decide)
    · exact absurd h2 (by decide)
    · rfl)

/-- C4: the sort stage emits a permutation of its input ordered descending by
score, with score ties broken by ascending title and remaining ties by
ascending link (`charListLt` is the code-point order, which on UTF-8 agrees
with Rust's byte-lexicographic `str` order). -/
theorem C4_sort_order (l : List SearchResult) :
    (sortStage l).Perm l ∧
    (sortStage l).Pairwise (fun a b =>
      b.score < a.score ∨ (a.score = b.score ∧
        (charListLt a.title.data b.title.data = true ∨
          (a.title = b.title ∧ charListLt b.link.data a.link.data = false)))) :=
  ⟨sortStage_perm l,
   (sortStage_sorted l).imp fun h => (resultLe_iff _ _).mp h⟩

/-- A result whose link contains `"www."` inside the path. -/
def dupA : SearchResult :=
  ⟨"t1", "https://example.com/www.page", "sn1", "Google", 0, none, none, []⟩

/-- A result whose link is `dupA`'s with the path's `"www."` removed; distinct
title and snippet. -/
def dupB : SearchResult :=
  ⟨"t2", "https://example.com/page", "sn2", "Google", 0, none, none, []⟩

/-- C5 fails as stated: under the spec's normalization (strip only a leading
`www.`) `dupB` is not a duplicate of `dupA` — the spec-normalized links
`example.com/page` and `example.com/www.page` differ, their similarity is
`0.8 ≤ 0.9`, and titles and snippets differ — yet the code (which removes
every `"www."` occurrence) drops `dupB`. -/
theorem C5_counterexample :
    specIsDuplicate dupB dupA = false ∧
    ResultScorer.remove_duplicates [dupA, dupB] = [dupA] := by
  constructor
  · have hlev : levDist (specNormalizeUrl dupB.link).data
        (specNormalizeUrl dupA.link).data = 4 := by decide
    have hmax : max (specNormalizeUrl dupB.link).data.length
        (specNormalizeUrl dupA.link).data.length = 20 := by decide
    have hnorm : normLev (specNormalizeUrl dupB.link) (specNormalizeUrl dupA.link)
        = 1 - (4:ℚ)/20 := by
      unfold normLev
      rw [if_neg (by decide), hlev, hmax]
      norm_num
    have hnot : ¬ ((9:ℚ)/10 <
        normLev (specNormalizeUrl dupB.link) (specNormalizeUrl dupA.link)) := by
      rw [hnorm]
      norm_num
    show (specNormalizeUrl dupB.link == specNormalizeUrl dupA.link
        || decide ((9:ℚ)/10 <
            normLev (specNormalizeUrl dupB.link) (specNormalizeUrl dupA.link))
        || dupB.title == dupA.title || dupB.snippet == dupA.snippet) = false
    rw [decide_eq_false hnot]
    decide
  · have hdup : ResultScorer.is_duplicate dupB dupA = true := by decide
    simp [ResultScorer.remove_duplicates, ResultScorer.removeDupGo, hdup]

/-- C5 amended: `remove_duplicates` is the single first-seen-wins pass with
the code's duplicate predicate, whose link normalization removes every
occurrence of `"www."` (after trimming trailing slashes, before lowercasing)
from host+path — or from the raw link when URL parsing fails; in particular
the output is a sublist of the input, and of any pair with equal
code-normalized links only the first-encountered result survives. -/
theorem C5_amended (l : List SearchResult) (r1 r2 : SearchResult)
    (hnorm : ResultScorer.normalize_url r1.link
      = ResultScorer.normalize_url r2.link) :
    ResultScorer.remove_duplicates l = ResultScorer.dedupSpecGo [] l ∧
    (ResultScorer.remove_duplicates l).Sublist l ∧
    ResultScorer.remove_duplicates (r1 :: l)
      = r1 :: ResultScorer.dedupSpecGo [r1] l ∧
    r2 ∉ ResultScorer.dedupSpecGo [r1] l := by
  refine ⟨ResultScorer.remove_duplicates_eq_spec l, ?_,
    ResultScorer.remove_duplicates_cons_head r1 l, ?_⟩
  · rw [ResultScorer.remove_duplicates_eq_spec]
    exact ResultScorer.dedupSpecGo_sublist l []
  · exact ResultScorer.not_mem_dedupSpecGo_of_dup r2 r1 l [r1] (by simp)
      (ResultScorer.is_duplicate_of_norm_eq r2 r1 hnorm.symm)

/-- Witness for C5 amended at the concrete `www.`-path pair. -/
theorem C5_amended_witness :
    ResultScorer.remove_duplicates ([] : List SearchResult)
        = ResultScorer.dedupSpecGo [] [] ∧
    (ResultScorer.remove_duplicates ([] : List SearchResult)).Sublist [] ∧
    ResultScorer.remove_duplicates [dupA]
        = dupA :: ResultScorer.dedupSpecGo [dupA] [] ∧
    dupB ∉ ResultScorer.dedupSpecGo [dupA] [] :=
  C5_amended [] dupA dupB (by decide)

/-- C6: `remove_duplicates` is idempotent — applying the pass to its own
output removes nothing further. -/
theorem C6_dedup_idempotent (l : List SearchResult) :
    ResultScorer.remove_duplicates (ResultScorer.remove_duplicates l)
      = ResultScorer.remove_duplicates l :=
  ResultScorer.remove_duplicates_idem l

/-- C7 fails as stated: the code formats the three optional parameters with
Rust's `Debug` formatting (`None` / `Some("…")`), so for present values the
key is not the plain interpolation the spec's scheme describes. -/
theorem C7_counterexample :
    cacheKey "q" (some 2) (some "d") (some "r") (some "l")
      ≠ specCacheKey "q" (some 2) (some "d") (some "r") (some "l") := by
  decide

/-- C7 amended: the search cache key is
`"search:{query}:{page}:{dateRange:?}:{region:?}:{language:?}"` — `page`
defaulting to 1 when absent and each optional rendered in Rust `Debug` form
(`None`, or `Some("…")` with the value quoted and escaped) — and the
autocomplete key is exactly `"autocomplete:{query}"`. -/
theorem C7_amended (query : String) (page : Option Nat)
    (dr rg lang : Option String) :
    cacheKey query page dr rg lang
        = "search:" ++ query ++ ":" ++ toString (page.getD 1) ++ ":"
          ++ rustDebugOpt dr ++ ":" ++ rustDebugOpt rg ++ ":"
          ++ rustDebugOpt lang
      ∧ cacheKey query none dr rg lang = cacheKey query (some 1) dr rg lang
      ∧ autocompleteKey query = "autocomplete:" ++ query
      ∧ rustDebugOpt none = "None"
      ∧ (∀ s, rustDebugOpt (some s) = "Some(" ++ rustDebugStr s ++ ")") :=
  ⟨rfl, rfl, rfl, rfl, fun _ => rfl⟩

/-- C8: `RedisCache::get` never propagates an error: it yields `none` on a
pool-acquisition failure (timeout included), on a backend command error, on a
missing key, and on a payload that fails to deserialize; it yields a value
only when every step succeeded. -/
theorem C8_cache_get_total {T : Type} (pool : Except RunError Unit)
    (cmd : Except RedisErrorKind (Option String)) (deser : String → Option T) :
    ((∃ e, pool = Except.error e) → RedisCache.get pool cmd deser = none) ∧
    (pool = Except.error RunError.timedOut →
      RedisCache.get pool cmd deser = none) ∧
    ((∃ e, cmd = Except.error e) → RedisCache.get pool cmd deser = none) ∧
    (cmd = Except.ok none → RedisCache.get pool cmd deser = none) ∧
    (∀ s, cmd = Except.ok (some s) → deser s = none →
      RedisCache.get pool cmd deser = none) ∧
    (∀ v, RedisCache.get pool cmd deser = some v →
      pool = Except.ok () ∧ ∃ s, cmd = Except.ok (some s) ∧ deser s = some v) := by
  refine ⟨?_, ?_, ?_, ?_, ?_, ?_⟩
  · rintro ⟨e, he⟩
    cases e <;> simp [RedisCache.get, he]
  · intro he
    simp [RedisCache.get, he]
  · rintro ⟨e, he⟩
    rcases pool with e' | c
    · cases e' <;> simp [RedisCache.get, he]
    · simp [RedisCache.get, he]
  · intro he
    rcases pool with e' | c
    · cases e' <;> simp [RedisCache.get, he]
    · simp [RedisCache.get, he]
  · intro s hs hd
    rcases pool with e' | c
    · cases e' <;> simp [RedisCache.get, hs, hd]
    · simp [RedisCache.get, hs, hd]
  · intro v hv
    rcases pool with e' | c
    · cases e' <;> simp [RedisCache.get] at hv
    · rcases cmd with e'' | r
      · simp [RedisCache.get] at hv
      · rcases r with _ | s
        · simp [RedisCache.get] at hv
        · refine ⟨rfl, s, rfl, ?_⟩
          simpa [RedisCache.get] using hv

/-- Witness for C8: a pool timeout, a backend error, a miss and a
deserialization failure each degrade to `none` at concrete inputs. -/
theorem C8_cache_get_total_witness :
    RedisCache.get (T := Nat) (Except.error RunError.timedOut)
        (Except.ok (some "x")) (fun _ => some 1) = none ∧
    RedisCache.get (T := Nat) (Except.ok ())
        (Except.error (RedisErrorKind.other "boom")) (fun _ => some 1) = none ∧
    RedisCache.get (T := Nat) (Except.ok ()) (Except.ok none)
        (fun _ => some 1) = none ∧
    RedisCache.get (T := Nat) (Except.ok ()) (Except.ok (some "bad"))
        (fun _ => none) = none :=
  ⟨(C8_cache_get_total _ _ _).2.1 rfl,
   (C8_cache_get_total _ _ _).2.2.1 ⟨RedisErrorKind.other "boom", rfl⟩,
   (C8_cache_get_total _ _ _).2.2.2.1 rfl,
   (C8_cache_get_total _ _ _).2.2.2.2.1 "bad" rfl rfl⟩

/-- C9: snippet equality alone makes two results duplicates; both parsers
default a missing snippet to the empty string; hence at most one result with
an empty snippet (indeed, with any given snippet) survives
`remove_duplicates`. -/
theorem C9_empty_snippet_collapse :
    (∀ r1 r2 : SearchResult, r1.snippet = r2.snippet →
      ResultScorer.is_duplicate r1 r2 = true) ∧
    (∀ (t l : String) (fav sn : Option String) (bc : List Breadcrumb),
      startsWithSub l "http" = true →
      (GoogleScraper.parseItem (some t) (some l) none fav sn bc).map
        SearchResult.snippet = some "") ∧
    (∀ (t l : String) (fav : Option String) (bc : List Breadcrumb),
      (DuckDuckGoScraper.parseItem (some t) (some l) none fav bc).map
        SearchResult.snippet = some "") ∧
    (∀ l : List SearchResult,
      (ResultScorer.remove_duplicates l).countP
        (fun r => r.snippet == "") ≤ 1) := by
  refine ⟨ResultScorer.is_duplicate_of_snippet_eq, ?_, ?_, ?_⟩
  · intro t l fav sn bc h
    simp [GoogleScraper.parseItem, h]
  · intro t l fav bc
    simp only [DuckDuckGoScraper.parseItem, Option.getD, Option.map]
    rfl
  · intro l
    apply ResultScorer.countP_snippet_le_one
    refine (ResultScorer.remove_duplicates_pairwise l).imp ?_
    intro a b h heq
    rw [ResultScorer.is_duplicate_of_snippet_eq b a heq.symm] at h
    cases h

/-- Witness for C9 at concrete snippets and parser fragments. -/
theorem C9_empty_snippet_collapse_witness :
    ResultScorer.is_duplicate tieA
        ⟨"other title", "https://other.example/zz", "s1", "DuckDuckGo", 0,
         none, none, []⟩ = true ∧
    (GoogleScraper.parseItem (some "a") (some "https://x.example/p") none
        none none []).map SearchResult.snippet = some "" :=
  ⟨C9_empty_snippet_collapse.1 tieA
     ⟨"other title", "https://other.example/zz", "s1", "DuckDuckGo", 0,
      none, none, []⟩ rfl,
   C9_empty_snippet_collapse.2.1 "a" "https://x.example/p" none none [] (by decide)⟩

/-- C10: `DuckDuckGoScraper::search` on `page = 0` takes the pagination branch
and its wrapping `u32` computation `(page - 1) * 10` yields the offset
`4294967286 = 2^32 - 10`, while `GoogleScraper::search` maps `page = 0` to
offset `0`: `page = 0` is not treated as page 1 uniformly. -/
theorem C10_page_zero_divergence :
    (∀ q : String, DuckDuckGoScraper.searchUrl q 0
        = DuckDuckGoScraper.base_url ++ "?q=" ++ q ++ "&s="
          ++ toString (u32mul (u32sub 0 1) 10)) ∧
    u32mul (u32sub 0 1) 10 = 4294967286 ∧
    DuckDuckGoScraper.searchUrl "rust" 0
        = "https://html.duckduckgo.com/html?q=rust&s=4294967286" ∧
    (∀ q : String, GoogleScraper.searchUrl q 0
        = GoogleScraper.base_url ++ "?q=" ++ q ++ "&start=" ++ "0"
          ++ "&num=10&hl=fr") ∧
    GoogleScraper.searchUrl "rust" 0
        = "https://www.google.com/search?q=rust&start=0&num=10&hl=fr" := by
  refine ⟨fun q => rfl, by decide, by decide, fun q => rfl, by decide⟩
